import Mathlib

/-!
Verification of the tbot-tradingboat PnL liquidation monitor.

This file is a shallow embedding of the two source files of the repository:

* `pnl_monitor.py` (`IBPortfolioMonitor`): percent-of-starting-equity monitor.
  Its handler `on_pnl_update` fetches the beginning balance on first use,
  computes the percentage change of net liquidation and calls
  `close_positions` when the change falls below `loss_threshold`
  (default `PNL_THRESHOLD = -0.05`).
* `mypnl.py` (`SimplePnLStrategy`): fixed-amount monitor.  Its handler
  `on_pnl` stores the latest PnL reading, and when
  `check_loss_threshold` fires it runs `close_all_positions` (one webhook
  POST per position) and disconnects.

Money numbers are modelled as rationals (`ℚ`); the floating-point literals
of the source (`-0.05`, `-0.01`) are translated as the exact rationals
`-(1/20)` and `-(1/100)` (for the concrete values appearing in the claims
the IEEE double computations round to exactly these values, e.g.
`-0.01 * 30000.0 = -300.0` exactly).  External side effects (order
placement, webhook POSTs, logging, disconnecting) are reified as effect
lists, and the results of the broker fetches are passed in as inputs.
-/

namespace TbotTradingboat

/-- A broker position: symbol, signed quantity (`position.position` in
ib_insync), and average cost (used by `close_all_positions` as the last
price). -/
structure Position where
  symbol : String
  position : ℚ
  avgCost : ℚ
deriving DecidableEq, Repr

/-- A PnL reading as delivered by `ib.pnlEvent`. -/
structure PnLReading where
  dailyPnL : ℚ
  unrealizedPnL : ℚ
  realizedPnL : ℚ
deriving DecidableEq, Repr

/-! ### IBPortfolioMonitor (pnl_monitor.py) -/

/-- Observable effects of `IBPortfolioMonitor`.  `closePositionsSeq` marks
one execution of the liquidation sequence (`self.close_positions()`);
`evalPolicy` marks one evaluation of the threshold comparison
`percentage_change <= self.loss_threshold`. -/
inductive MonEffect where
  | closePositionsSeq
  | evalPolicy
  | logInfo
  | logWarn
  | logError
deriving DecidableEq, Repr

/-- Mutable state of `IBPortfolioMonitor` relevant to the claims. -/
structure MonState where
  beginning_balance : Option ℚ
  action_taken : Bool
  loss_threshold : ℚ
deriving DecidableEq, Repr

/-- Number of liquidation sequences in an effect list. -/
def liquidations (l : List MonEffect) : ℕ :=
  l.countP fun e =>
    match e with
    | MonEffect.closePositionsSeq => true
    | _ => false

/-- Number of threshold-policy evaluations in an effect list. -/
def policyEvals (l : List MonEffect) : ℕ :=
  l.countP fun e =>
    match e with
    | MonEffect.evalPolicy => true
    | _ => false

/-- `fetch_beginning_balance` from pnl_monitor.py.  The argument `fetched`
is the result of `self.fetch_net_liquidation()`.  The source assigns the
fetch result to `self.beginning_balance`; if it is not `None` it calls
`self.close_positions()`, sets `self.action_taken = True` and logs;
otherwise it logs an error. -/
def fetch_beginning_balance (st : MonState) (fetched : Option ℚ) :
    MonState × List MonEffect :=
  match fetched with
  | some v =>
      ({ st with beginning_balance := some v, action_taken := true },
       [MonEffect.closePositionsSeq, MonEffect.logInfo])
  | none =>
      ({ st with beginning_balance := none }, [MonEffect.logError])

/-- `on_pnl_update` from pnl_monitor.py.  `fetchBegin` is the value
`fetch_net_liquidation` would return inside `fetch_beginning_balance`
(consulted only when `beginning_balance` is `None`); `fetchCur` is the
result of the second `fetch_net_liquidation` call.  When both the current
net liquidation and the beginning balance are available the percentage
change is computed and compared against `loss_threshold`; on breach the
monitor calls `close_positions()` and sets `action_taken` (the flag is
never read anywhere). -/
def on_pnl_update (st : MonState) (fetchBegin fetchCur : Option ℚ) :
    MonState × List MonEffect :=
  let r1 :=
    match st.beginning_balance with
    | none => fetch_beginning_balance st fetchBegin
    | some _ => (st, ([] : List MonEffect))
  let st1 := r1.1
  let eff1 := r1.2
  match fetchCur, st1.beginning_balance with
  | some cur, some bb =>
      let pct := (cur - bb) / bb * 100
      if pct ≤ st1.loss_threshold then
        ({ st1 with action_taken := true },
         eff1 ++ [MonEffect.logInfo, MonEffect.evalPolicy, MonEffect.logWarn,
                  MonEffect.closePositionsSeq])
      else
        (st1, eff1 ++ [MonEffect.logInfo, MonEffect.evalPolicy])
  | _, _ => (st1, eff1 ++ [MonEffect.logError])

/-- `pnl_update` from pnl_monitor.py, the handler actually subscribed to
`ib.pnlEvent`: it re-subscribes itself (`self.ib.pnlEvent += self.pnl_update`)
and logs.  It performs no threshold evaluation and no liquidation. -/
def pnl_update_effects : List MonEffect := [MonEffect.logInfo]

/-- Delivery of `n` successive `pnlEvent`s in `IBPortfolioMonitor.run`:
with `subs` live subscriptions of `pnl_update`, one event invokes
`pnl_update` once per subscription, and every invocation adds another
subscription, so the next event sees `2 * subs` handlers.  No delivery
evaluates the threshold policy. -/
def dispatchPnlEvents (subs : ℕ) : ℕ → List MonEffect
  | 0 => []
  | n + 1 =>
      (List.replicate subs MonEffect.logInfo) ++ dispatchPnlEvents (2 * subs) n

/-- `IBPortfolioMonitor.run`: after connecting, `on_pnl_update` is called
exactly once (the only place where the threshold policy can run); the two
direct `pnl_update(account)` calls log and leave two subscriptions of
`pnl_update` on `pnlEvent`; then `ib.run()` delivers `n` further PnL
events, all handled only by `pnl_update`. -/
def ibMonitorRun (st : MonState) (fetchBegin fetchCur : Option ℚ) (n : ℕ) :
    List MonEffect :=
  (on_pnl_update st fetchBegin fetchCur).2
    ++ pnl_update_effects ++ pnl_update_effects
    ++ dispatchPnlEvents 2 n

/-- An order placed by `close_positions`: the keyword arguments of the
`Order(...)` constructed in the source. -/
structure OrderEff where
  symbol : String
  action : String
  totalQuantity : ℚ
  orderType : String
deriving DecidableEq, Repr

/-- `close_positions` from pnl_monitor.py: for each position, skip if the
signed size is zero, otherwise place one market order on the opposite
side sized at the absolute quantity. -/
def close_positions : List Position → List OrderEff
  | [] => []
  | p :: rest =>
      if p.position = 0 then close_positions rest
      else
        { symbol := p.symbol,
          action := if 0 < p.position then "SELL" else "BUY",
          totalQuantity := |p.position|,
          orderType := "MKT" } :: close_positions rest

/-- `close_positions` with a fallible `placeOrder`: the loop body has no
try/except, so an exception raised while placing one order propagates out
of the loop and the remaining positions are not processed.  `fails s`
says whether placing the order for symbol `s` raises.  Returns the
symbols for which an order placement was attempted. -/
def close_positions_attempted (fails : String → Bool) :
    List Position → List String
  | [] => []
  | p :: rest =>
      if p.position = 0 then close_positions_attempted fails rest
      else if fails p.symbol then [p.symbol]
      else p.symbol :: close_positions_attempted fails rest

/-! ### SimplePnLStrategy (mypnl.py) -/

/-- The loss threshold computed in `SimplePnLStrategy.__init__`:
`self.loss_threshold = -0.01 * self.account_balance` (1% of the
user-supplied account balance, as a negative dollar amount). -/
def lossThreshold (account_balance : ℚ) : ℚ := -(1/100) * account_balance

/-- `check_loss_threshold` from mypnl.py:
`if self.pnl and self.pnl.dailyPnL <= self.loss_threshold`.  A missing
reading (`self.pnl` still `None`) is falsy, so the method returns
`False`; otherwise the daily PnL is compared against the threshold,
boundary inclusive. -/
def check_loss_threshold (pnl : Option PnLReading) (loss_threshold : ℚ) :
    Bool :=
  match pnl with
  | none => false
  | some p => decide (p.dailyPnL ≤ loss_threshold)

/-- One entry of the `metrics` array of the webhook payload. -/
structure Metric where
  name : String
  value : ℚ
deriving DecidableEq, Repr

/-- The JSON payload built by `close_all_positions` for one position. -/
structure Payload where
  timestamp : ℕ
  ticker : String
  currency : String
  timeframe : String
  clientId : String
  key : String
  contract : String
  orderRef : String
  direction : String
  metrics : List Metric
deriving DecidableEq, Repr

/-- An HTTP POST request as issued by `requests.post(url, headers, data)`. -/
structure HttpPost where
  url : String
  contentType : String
  body : Payload
deriving DecidableEq, Repr

/-- Outcome of one POST attempt: a response with some status code (the
code logs the status whatever it is and never branches on it), or an
exception (caught by the `except` clause and logged). -/
inductive PostOutcome where
  | ok (status : ℕ)
  | exn
deriving DecidableEq, Repr

/-- The webhook URL hard-coded in `close_all_positions`. -/
def webhookUrl : String := "https://tv.porenta.us/webhook"

/-- The payload dictionary literal of `close_all_positions`: `now` is
`int(time.time())`; `ticker` is the position symbol; `price` carries
`position.avgCost` (the source comment: use the avgCost as the last
price); `qty` carries the sentinel `-10000000000`. -/
def closeAllPayload (now : ℕ) (p : Position) : Payload :=
  { timestamp := now
    ticker := p.symbol
    currency := "USD"
    timeframe := "S"
    clientId := "1"
    key := "WebhookReceived:fcbd3d"
    contract := "stock"
    orderRef := "close_all"
    direction := "strategy.close_all"
    metrics := [⟨"entry.limit", 0⟩, ⟨"entry.stop", 0⟩, ⟨"exit.limit", 0⟩,
                ⟨"exit.stop", 0⟩, ⟨"qty", -10000000000⟩,
                ⟨"price", p.avgCost⟩] }

/-- The loop of `close_all_positions` from mypnl.py: one POST per position
in `ib.positions()`, in order.  `resp p` is `some status` when
`requests.post` returns a response for the position `p` and `none` when
it raises; in both branches the loop continues to the next position (the
POST sits inside `try ... except`, whose handler only logs). -/
def close_all_positions_trace (now : ℕ) (resp : Position → Option ℕ) :
    List Position → List (HttpPost × PostOutcome)
  | [] => []
  | p :: rest =>
      let req : HttpPost :=
        { url := webhookUrl, contentType := "application/json",
          body := closeAllPayload now p }
      let outcome :=
        match resp p with
        | some s => PostOutcome.ok s
        | none => PostOutcome.exn
      (req, outcome) :: close_all_positions_trace now resp rest

/-- Mutable state of `SimplePnLStrategy` relevant to the claims. -/
structure StratState where
  pnl : Option PnLReading
  loss_threshold : ℚ
deriving DecidableEq, Repr

/-- Observable effects of `SimplePnLStrategy`.  `cancelAllOrders` stands
for a global cancel request (`reqGlobalCancel`); the source never emits
it.  `placeMarketOrder` stands for an order placement; `close_all_positions`
never emits one either (it only POSTs to the webhook). -/
inductive SEffect where
  | httpPost (req : HttpPost) (outcome : PostOutcome)
  | placeMarketOrder (symbol action : String) (qty : ℚ)
  | cancelAllOrders
  | disconnectIB
  | logInfo
deriving DecidableEq, Repr

/-- Number of global cancel requests in an effect list. -/
def cancelRequests (l : List SEffect) : ℕ :=
  l.countP fun e =>
    match e with
    | SEffect.cancelAllOrders => true
    | _ => false

/-- Number of order placements in an effect list of `SimplePnLStrategy`. -/
def marketOrders (l : List SEffect) : ℕ :=
  l.countP fun e =>
    match e with
    | SEffect.placeMarketOrder _ _ _ => true
    | _ => false

/-- `on_pnl` from mypnl.py, the handler subscribed to `ib.pnlEvent`: store
the new reading in `self.pnl`; if `check_loss_threshold()` fires, run
`close_all_positions()`, log twice and disconnect. -/
def on_pnl (st : StratState) (reading : PnLReading) (now : ℕ)
    (resp : Position → Option ℕ) (positions : List Position) :
    StratState × List SEffect :=
  let st1 : StratState := { st with pnl := some reading }
  if check_loss_threshold st1.pnl st1.loss_threshold then
    (st1,
     (close_all_positions_trace now resp positions).map
        (fun e => SEffect.httpPost e.1 e.2)
       ++ [SEffect.logInfo, SEffect.logInfo, SEffect.disconnectIB])
  else
    (st1, [])

/-! ### The run lifecycle of SimplePnLStrategy (readiness, C9) -/

/-- Events delivered by the gateway during `SimplePnLStrategy.run`.
`positionEnd` is the gateway signal that the position snapshot has been
fully received (the source never waits for it or records it);
`accountSummary` is an account-summary value (the source never consults
it either). -/
inductive GwEvent where
  | positionUpdate (p : Position)
  | positionEnd
  | accountSummary (v : ℚ)
  | pnlUpdate (r : PnLReading)
deriving DecidableEq, Repr

/-- State of the `run` lifecycle.  `pnlSubscribed` becomes true when
`wait_for_initial_position` exits (that is, as soon as `ib.positions()`
is nonempty) and `request_pnl_updates` subscribes `on_pnl`.  Each entry
of `evals` records one evaluation of `check_loss_threshold` together
with the readiness facts at that moment: whether any position existed
and whether the snapshot-complete signal had been received. -/
structure RunState where
  positions : List Position
  snapshotComplete : Bool
  summarySeen : Bool
  pnlSubscribed : Bool
  evals : List (PnLReading × Bool × Bool)
deriving DecidableEq, Repr

/-- One step of the `run` lifecycle.  Before handling the event, the
`wait_for_initial_position` polling loop exits (and the PnL subscription
is made) as soon as the position list is nonempty — its only condition.
A PnL update delivered before the subscription is simply not dispatched
to `on_pnl`; after it, every update is evaluated, whatever the state of
the snapshot-complete or account-summary signals. -/
def mypnl_step (st : RunState) (e : GwEvent) : RunState :=
  let st :=
    if !st.pnlSubscribed && !st.positions.isEmpty then
      { st with pnlSubscribed := true }
    else st
  match e with
  | GwEvent.positionUpdate p => { st with positions := st.positions ++ [p] }
  | GwEvent.positionEnd => { st with snapshotComplete := true }
  | GwEvent.accountSummary _ => { st with summarySeen := true }
  | GwEvent.pnlUpdate r =>
      if st.pnlSubscribed then
        { st with
            evals := st.evals
              ++ [(r, !st.positions.isEmpty, st.snapshotComplete)] }
      else st

/-- The `run` lifecycle of `SimplePnLStrategy` over a schedule of gateway
events, starting with no positions, no snapshot-complete signal, no
account summary and no PnL subscription. -/
def mypnl_run (events : List GwEvent) : RunState :=
  events.foldl mypnl_step
    { positions := [], snapshotComplete := false, summarySeen := false,
      pnlSubscribed := false, evals := [] }

/-! ### The breach predicate claimed by the spec for percent mode (C8) -/

/-- Breach predicate written from the claim text for percent-of-equity
mode: breached exactly when
`(current_equity - starting_equity) / starting_equity * 100 <= -limit_percent`,
where `limit_percent` is the configured loss-threshold value.  To be
compared with the comparison actually performed by `on_pnl_update`,
which tests the percentage change against the configured value itself,
without negating it. -/
def specC8Breach (limit_percent bb cur : ℚ) : Bool :=
  decide ((cur - bb) / bb * 100 ≤ -limit_percent)

/-! ### Theorems -/

/-- C1: the claim says at most one liquidation sequence executes per
process lifetime, with the `action_taken` flag guarding re-triggering.
The code violates it: `on_pnl_update` never reads `action_taken`.  With
the default threshold `-0.05`, a first update whose beginning-balance
fetch returns 100 and whose current fetch returns 90 runs the
liquidation sequence twice in one call (once unconditionally inside
`fetch_beginning_balance`, once on the breach), and a second breaching
update (current 90 again) runs it a third time even though
`action_taken` is already `true`. -/
theorem double_breach_liquidates_twice :
    liquidations (on_pnl_update
      { beginning_balance := none, action_taken := false,
        loss_threshold := -(1/20) } (some 100) (some 90)).2 = 2
    ∧ (on_pnl_update
        { beginning_balance := none, action_taken := false,
          loss_threshold := -(1/20) } (some 100) (some 90)).1.action_taken
        = true
    ∧ liquidations (on_pnl_update
        (on_pnl_update
          { beginning_balance := none, action_taken := false,
            loss_threshold := -(1/20) } (some 100) (some 90)).1
        none (some 90)).2 = 1 := by
  refine ⟨?_, ?_, ?_⟩ <;>
    · simp only [on_pnl_update, fetch_beginning_balance]
      norm_num [liquidations]

/-- C2: whenever the beginning balance has not been set and the first
net-liquidation fetch succeeds (with any value `v`), the call to
`fetch_beginning_balance` sets `action_taken` and runs the liquidation
sequence unconditionally — no threshold is consulted — and the same
happens inside `on_pnl_update` on the very first evaluation. -/
theorem fetch_beginning_balance_liquidates (a : Bool) (t v : ℚ)
    (fc : Option ℚ) :
    (fetch_beginning_balance
        { beginning_balance := none, action_taken := a, loss_threshold := t }
        (some v)).1.action_taken = true
    ∧ MonEffect.closePositionsSeq ∈
        (fetch_beginning_balance
          { beginning_balance := none, action_taken := a, loss_threshold := t }
          (some v)).2
    ∧ MonEffect.closePositionsSeq ∈
        (on_pnl_update
          { beginning_balance := none, action_taken := a, loss_threshold := t }
          (some v) fc).2 := by
  refine ⟨rfl, by simp [fetch_beginning_balance], ?_⟩
  cases fc with
  | none => simp [on_pnl_update, fetch_beginning_balance]
  | some cur =>
      simp only [on_pnl_update, fetch_beginning_balance]
      split <;> simp

/-- C3: the claim says every PnL update event is checked against the
limit while monitoring, not only the first reading after startup.  In
`IBPortfolioMonitor` this fails: over a whole run whose startup fetches
succeed (beginning 100, current 90), the threshold policy is evaluated
exactly once no matter how many further PnL update events `ib.run()`
delivers — the subscribed handler `pnl_update` only logs and
re-subscribes itself. -/
theorem policy_evaluated_once_per_run (n : ℕ) :
    policyEvals (ibMonitorRun
      { beginning_balance := none, action_taken := false,
        loss_threshold := -(1/20) } (some 100) (some 90) n) = 1 := by
  have hrep : ∀ m : ℕ, policyEvals (List.replicate m MonEffect.logInfo) = 0 := by
    intro m
    induction m with
    | zero => rfl
    | succ k ih =>
        simp only [policyEvals, List.replicate_succ, List.countP_cons] at ih ⊢
        simp [ih]
  have hdisp : ∀ (k s : ℕ), policyEvals (dispatchPnlEvents s k) = 0 := by
    intro k
    induction k with
    | zero => intro s; rfl
    | succ m ih =>
        intro s
        simp only [dispatchPnlEvents, policyEvals, List.countP_append]
        have h1 := hrep s
        have h2 := ih (2 * s)
        simp only [policyEvals] at h1 h2
        omega
  simp only [ibMonitorRun, policyEvals, List.countP_append]
  have h2 := hdisp n 2
  simp only [policyEvals] at h2
  rw [h2]
  simp only [on_pnl_update, fetch_beginning_balance, pnl_update_effects]
  norm_num

/-- C8 counterexample: the claim says percent-of-equity breach is
signaled exactly when the percentage change is `≤ -limit_percent` with
`limit_percent` the configured loss-threshold value.  With the default
configured value `-0.05`, beginning balance 100 and current value 100,
the claim formula holds (`0 ≤ 0.05`) yet the code signals no breach: it
compares the percentage change against the configured value itself
(`0 ≤ -0.05` is false), without negating it. -/
theorem percent_breach_sign_mismatch :
    liquidations (on_pnl_update
      { beginning_balance := some 100, action_taken := false,
        loss_threshold := -(1/20) } none (some 100)).2 = 0
    ∧ specC8Breach (-(1/20)) 100 100 = true := by
  constructor
  · simp only [on_pnl_update]
    norm_num [liquidations]
  · simp only [specC8Breach]
    norm_num

/-- C8 amended: with a beginning balance `bb` already set and a current
fetch `cur`, `on_pnl_update` signals a breach (runs the liquidation
sequence) exactly when `(cur - bb) / bb * 100 ≤ -lp`, where `-lp` is the
configured loss-threshold value itself — the configured value is already
the negated percent limit and is not negated again by the code. -/
theorem percent_breach_iff (lp bb cur : ℚ) (a : Bool) (fb : Option ℚ) :
    MonEffect.closePositionsSeq ∈
      (on_pnl_update
        { beginning_balance := some bb, action_taken := a,
          loss_threshold := -lp } fb (some cur)).2
    ↔ (cur - bb) / bb * 100 ≤ -lp := by
  simp only [on_pnl_update]
  split
  · next h => simp [h]
  · next h => simp [h]

/-- C4: in fixed-amount mode `check_loss_threshold` returns true exactly
for readings with `dailyPnL ≤ -|limit|` where the limit is 1% of the
account balance, boundary inclusive; with balance 30000 the computed
threshold is -300, a reading of -300 (exact equality) breaches, -300.01
breaches and -299.99 does not. -/
theorem check_loss_threshold_fixed_amount :
    (∀ (b : ℚ) (r : PnLReading), 0 ≤ b →
        (check_loss_threshold (some r) (lossThreshold b) = true
          ↔ r.dailyPnL ≤ -|(1/100 : ℚ) * b|))
    ∧ lossThreshold 30000 = -300
    ∧ check_loss_threshold (some ⟨-300, 0, 0⟩) (lossThreshold 30000) = true
    ∧ check_loss_threshold (some ⟨-(30001/100), 0, 0⟩) (lossThreshold 30000)
        = true
    ∧ check_loss_threshold (some ⟨-(29999/100), 0, 0⟩) (lossThreshold 30000)
        = false := by
  refine ⟨?_, by norm_num [lossThreshold], ?_, ?_, ?_⟩
  · intro b r hb
    have habs : |(1/100 : ℚ) * b| = (1/100 : ℚ) * b :=
      abs_of_nonneg (by positivity)
    simp only [check_loss_threshold, lossThreshold, decide_eq_true_eq, habs,
      neg_mul]
  all_goals
    simp only [check_loss_threshold, lossThreshold]
    norm_num

/-- C4 witness: the fixed-amount characterization instantiated at a
balance of 30000 and the boundary reading -300. -/
theorem check_loss_threshold_fixed_amount_witness :
    check_loss_threshold (some ⟨-300, 0, 0⟩) (lossThreshold 30000) = true
      ↔ (⟨-300, 0, 0⟩ : PnLReading).dailyPnL ≤ -|(1/100 : ℚ) * 30000| :=
  check_loss_threshold_fixed_amount.1 30000 ⟨-300, 0, 0⟩ (by norm_num)

/-- Helper: mapping the webhook trace into effects produces no order
placement. -/
theorem marketOrders_of_posts (l : List (HttpPost × PostOutcome)) :
    marketOrders (l.map fun e => SEffect.httpPost e.1 e.2) = 0 := by
  induction l with
  | nil => rfl
  | cons x xs ih =>
      simp only [marketOrders, List.map_cons, List.countP_cons] at ih ⊢
      simp [ih]

/-- C6 counterexample: the claim says liquidation submits exactly one
market order per nonzero position and skips zero-quantity positions, so
on the snapshot AAPL +100, MSFT -50, TSLA 0 exactly two orders with
TSLA skipped.  The liquidation path of `SimplePnLStrategy`
(`close_all_positions`, run from `on_pnl` on a breaching reading)
falsifies it: it submits zero market orders, its loop issues one
webhook POST per position — three POSTs, not two orders — and TSLA is
not skipped: the third POST carries ticker TSLA despite the zero
quantity. -/
theorem close_all_positions_no_orders :
    marketOrders (on_pnl { pnl := none, loss_threshold := -300 }
        ⟨-400, 0, 0⟩ 0 (fun _ => some 200)
        [{ symbol := "AAPL", position := 100, avgCost := 150 },
         { symbol := "MSFT", position := -50, avgCost := 40 },
         { symbol := "TSLA", position := 0, avgCost := 250 }]).2 = 0
    ∧ (close_all_positions_trace 0 (fun _ => some 200)
        [{ symbol := "AAPL", position := 100, avgCost := 150 },
         { symbol := "MSFT", position := -50, avgCost := 40 },
         { symbol := "TSLA", position := 0, avgCost := 250 }]).map
          (fun e => e.1.body.ticker)
        = ["AAPL", "MSFT", "TSLA"]
    ∧ (close_all_positions_trace 0 (fun _ => some 200)
        [{ symbol := "AAPL", position := 100, avgCost := 150 },
         { symbol := "MSFT", position := -50, avgCost := 40 },
         { symbol := "TSLA", position := 0, avgCost := 250 }]).length
        = 3 := by
  have hb : check_loss_threshold (some (⟨-400, 0, 0⟩ : PnLReading)) (-300)
      = true := by
    simp only [check_loss_threshold]
    norm_num
  refine ⟨?_, rfl, rfl⟩
  simp only [on_pnl, hb, if_true]
  norm_num [marketOrders, close_all_positions_trace]

/-- C6 amended: the order-submitting liquidation path, `close_positions`
of `IBPortfolioMonitor`, submits exactly one market order for each
position with nonzero quantity, on the opposite side and sized at the
absolute quantity, and skips zero-quantity positions; on the snapshot
AAPL +100, MSFT -50, TSLA 0 it issues exactly the two orders SELL 100
AAPL and BUY 50 MSFT.  The liquidation path of `SimplePnLStrategy`
submits no market orders at all: `on_pnl` never emits an order
placement, and the `close_all_positions` loop issues one webhook POST
per position of the snapshot, zero-quantity positions included. -/
theorem close_positions_orders :
    (∀ ps : List Position,
        close_positions ps
          = (ps.filter fun p => decide (p.position ≠ 0)).map
              (fun p =>
                { symbol := p.symbol,
                  action := if 0 < p.position then "SELL" else "BUY",
                  totalQuantity := |p.position|,
                  orderType := "MKT" }))
    ∧ close_positions
        [{ symbol := "AAPL", position := 100, avgCost := 0 },
         { symbol := "MSFT", position := -50, avgCost := 0 },
         { symbol := "TSLA", position := 0, avgCost := 0 }]
        = [{ symbol := "AAPL", action := "SELL", totalQuantity := 100,
             orderType := "MKT" },
           { symbol := "MSFT", action := "BUY", totalQuantity := 50,
             orderType := "MKT" }]
    ∧ (∀ (st : StratState) (r : PnLReading) (now : ℕ)
         (resp : Position → Option ℕ) (ps : List Position),
         marketOrders (on_pnl st r now resp ps).2 = 0)
    ∧ (∀ (now : ℕ) (resp : Position → Option ℕ) (ps : List Position),
         (close_all_positions_trace now resp ps).length = ps.length) := by
  refine ⟨?_, ?_, ?_, ?_⟩
  · intro ps
    induction ps with
    | nil => rfl
    | cons p rest ih =>
        by_cases h : p.position = 0 <;>
          simp [close_positions, List.filter_cons, h, ih]
  · norm_num [close_positions]
  · intro st r now resp ps
    by_cases hc : check_loss_threshold (some r) st.loss_threshold = true
    · have heq : (on_pnl st r now resp ps).2
          = (close_all_positions_trace now resp ps).map
              (fun e => SEffect.httpPost e.1 e.2)
            ++ [SEffect.logInfo, SEffect.logInfo, SEffect.disconnectIB] := by
        simp [on_pnl, hc]
      rw [heq]
      have h0 := marketOrders_of_posts (close_all_positions_trace now resp ps)
      simp only [marketOrders, List.countP_append]
      simp only [marketOrders] at h0
      rw [h0]
      rfl
    · have heq : (on_pnl st r now resp ps).2 = [] := by
        simp [on_pnl, hc]
      rw [heq]
      rfl
  · intro now resp ps
    induction ps with
    | nil => rfl
    | cons p rest ih => simp [close_all_positions_trace, ih]

/-- C7 counterexample: the claim says a failure of the side effect for
one position never prevents the remaining positions from being processed.  In
`close_positions` (order placement, no try/except in the loop) this is
false: on the snapshot AAPL +100, MSFT -50, when placing the AAPL order
raises, only AAPL is attempted and the MSFT order is never submitted. -/
theorem order_failure_blocks_rest :
    close_positions_attempted (fun s => s == "AAPL")
        [{ symbol := "AAPL", position := 100, avgCost := 0 },
         { symbol := "MSFT", position := -50, avgCost := 0 }]
      = ["AAPL"]
    ∧ "MSFT" ∉ close_positions_attempted (fun s => s == "AAPL")
        [{ symbol := "AAPL", position := 100, avgCost := 0 },
         { symbol := "MSFT", position := -50, avgCost := 0 }] := by
  have h : close_positions_attempted (fun s => s == "AAPL")
      [{ symbol := "AAPL", position := 100, avgCost := 0 },
       { symbol := "MSFT", position := -50, avgCost := 0 }] = ["AAPL"] := by
    norm_num [close_positions_attempted]
  refine ⟨h, ?_⟩
  rw [h]
  simp

/-- C7 amended: partial-failure semantics holds for the webhook loop of
`close_all_positions` — whatever subset of the POSTs fails, every
position is still attempted, one POST each, in order — while order
placement in `close_positions` aborts on the first failure (see the
counterexample). -/
theorem webhook_failures_do_not_block (now : ℕ) (resp : Position → Option ℕ)
    (ps : List Position) :
    (close_all_positions_trace now resp ps).map (fun e => e.1.body.ticker)
      = ps.map Position.symbol := by
  induction ps with
  | nil => rfl
  | cons p rest ih =>
      simp [close_all_positions_trace, closeAllPayload, ih]

/-- C10: for each position processed by `close_all_positions`, exactly
one HTTP POST is issued to the webhook with Content-Type
application/json, carrying the unix timestamp, the symbol as ticker,
currency USD, contract stock, orderRef close_all, direction
strategy.close_all, the qty metric with the sentinel -10000000000 and
the price metric with the last known price (the average cost of the
position); the requests are independent of the responses, so a failure or a
non-2xx response never blocks the remaining positions and nothing is
retried. -/
theorem close_all_positions_webhook (now : ℕ) (resp : Position → Option ℕ)
    (ps : List Position) :
    (close_all_positions_trace now resp ps).map Prod.fst
      = ps.map (fun p =>
          { url := webhookUrl, contentType := "application/json",
            body := closeAllPayload now p })
    ∧ ∀ p : Position,
        (closeAllPayload now p).timestamp = now
        ∧ (closeAllPayload now p).ticker = p.symbol
        ∧ (closeAllPayload now p).currency = "USD"
        ∧ (closeAllPayload now p).contract = "stock"
        ∧ (closeAllPayload now p).orderRef = "close_all"
        ∧ (closeAllPayload now p).direction = "strategy.close_all"
        ∧ Metric.mk "qty" (-10000000000) ∈ (closeAllPayload now p).metrics
        ∧ Metric.mk "price" p.avgCost ∈ (closeAllPayload now p).metrics := by
  constructor
  · induction ps with
    | nil => rfl
    | cons p rest ih => simp [close_all_positions_trace, ih]
  · intro p
    refine ⟨rfl, rfl, rfl, rfl, rfl, rfl, ?_, ?_⟩ <;> simp [closeAllPayload]

/-- Helper: mapping the webhook trace into effects produces no global
cancel request. -/
theorem cancelRequests_of_posts (l : List (HttpPost × PostOutcome)) :
    cancelRequests (l.map fun e => SEffect.httpPost e.1 e.2) = 0 := by
  induction l with
  | nil => rfl
  | cons x xs ih =>
      simp only [cancelRequests, List.map_cons, List.countP_cons] at ih ⊢
      simp [ih]

/-- C5 counterexample: the claim says that after the closing loop exactly
one cancel-all request is issued and then the session is disconnected.
On a breaching reading (-400 against threshold -300, one AAPL position)
the liquidation sequence of `SimplePnLStrategy` does disconnect, but it
issues zero cancel-all requests (no `reqGlobalCancel` exists anywhere in
the source) — not exactly one. -/
theorem no_cancel_all_issued :
    cancelRequests (on_pnl { pnl := none, loss_threshold := -300 }
        ⟨-400, 0, 0⟩ 0 (fun _ => none)
        [{ symbol := "AAPL", position := 100, avgCost := 150 }]).2 = 0
    ∧ SEffect.disconnectIB ∈ (on_pnl { pnl := none, loss_threshold := -300 }
        ⟨-400, 0, 0⟩ 0 (fun _ => none)
        [{ symbol := "AAPL", position := 100, avgCost := 150 }]).2 := by
  have hb : check_loss_threshold (some (⟨-400, 0, 0⟩ : PnLReading)) (-300)
      = true := by
    simp only [check_loss_threshold]
    norm_num
  constructor
  · simp only [on_pnl, hb, if_true]
    norm_num [cancelRequests, close_all_positions_trace]
  · simp only [on_pnl, hb, if_true]
    simp

/-- C5 amended: on a breaching reading the effect sequence of `on_pnl` is
the webhook POSTs of `close_all_positions`, one per position in order,
followed by the disconnect as the final effect; no cancel-all request is
issued anywhere in between (or at all). -/
theorem liquidation_sequence_effects (st : StratState) (r : PnLReading)
    (now : ℕ) (resp : Position → Option ℕ) (ps : List Position)
    (h : check_loss_threshold (some r) st.loss_threshold = true) :
    (on_pnl st r now resp ps).2
      = (close_all_positions_trace now resp ps).map
          (fun e => SEffect.httpPost e.1 e.2)
        ++ [SEffect.logInfo, SEffect.logInfo, SEffect.disconnectIB]
    ∧ cancelRequests (on_pnl st r now resp ps).2 = 0 := by
  have heq : (on_pnl st r now resp ps).2
      = (close_all_positions_trace now resp ps).map
          (fun e => SEffect.httpPost e.1 e.2)
        ++ [SEffect.logInfo, SEffect.logInfo, SEffect.disconnectIB] := by
    simp [on_pnl, h]
  refine ⟨heq, ?_⟩
  rw [heq]
  have h0 := cancelRequests_of_posts (close_all_positions_trace now resp ps)
  simp only [cancelRequests, List.countP_append]
  simp only [cancelRequests] at h0
  rw [h0]
  rfl

/-- C5 witness: the amended liquidation-sequence shape at a concrete
breaching input. -/
theorem liquidation_sequence_effects_witness :
    (on_pnl { pnl := none, loss_threshold := -300 } ⟨-400, 0, 0⟩ 5
        (fun _ => some 200)
        [{ symbol := "MSFT", position := -50, avgCost := 10 }]).2
      = (close_all_positions_trace 5 (fun _ => some 200)
          [{ symbol := "MSFT", position := -50, avgCost := 10 }]).map
          (fun e => SEffect.httpPost e.1 e.2)
        ++ [SEffect.logInfo, SEffect.logInfo, SEffect.disconnectIB]
    ∧ cancelRequests (on_pnl { pnl := none, loss_threshold := -300 }
        ⟨-400, 0, 0⟩ 5 (fun _ => some 200)
        [{ symbol := "MSFT", position := -50, avgCost := 10 }]).2 = 0 :=
  liquidation_sequence_effects { pnl := none, loss_threshold := -300 }
    ⟨-400, 0, 0⟩ 5 (fun _ => some 200)
    [{ symbol := "MSFT", position := -50, avgCost := 10 }]
    (by simp only [check_loss_threshold]; norm_num)

/-- C9 counterexample: the claim says the threshold policy is never
evaluated before both readiness gates hold, in particular not before the
position snapshot has been fully received at least once.  The code has
no such gate: on the schedule where one AAPL position arrives and then a
PnL update is delivered — with no snapshot-complete signal ever — the
update is evaluated, and the recorded readiness at evaluation time shows
the snapshot-complete gate unsatisfied. -/
theorem eval_before_snapshot_complete :
    (mypnl_run
      [GwEvent.positionUpdate
        { symbol := "AAPL", position := 100, avgCost := 150 },
       GwEvent.pnlUpdate ⟨-1000, 0, 0⟩]).evals
      = [(⟨-1000, 0, 0⟩, true, false)]
    ∧ (mypnl_run
      [GwEvent.positionUpdate
        { symbol := "AAPL", position := 100, avgCost := 150 },
       GwEvent.pnlUpdate ⟨-1000, 0, 0⟩]).snapshotComplete = false := by
  constructor <;> rfl

/-- Helper: one step of the run lifecycle preserves the facts that every
recorded evaluation happened with a nonempty position list and that the
PnL subscription implies a nonempty position list. -/
theorem mypnl_step_invariant (st : RunState) (e : GwEvent)
    (h1 : (st.evals.all fun x => x.2.1) = true)
    (h2 : st.pnlSubscribed = true → st.positions.isEmpty = false) :
    ((mypnl_step st e).evals.all fun x => x.2.1) = true
    ∧ ((mypnl_step st e).pnlSubscribed = true →
        (mypnl_step st e).positions.isEmpty = false) := by
  unfold mypnl_step
  set st2 := if !st.pnlSubscribed && !st.positions.isEmpty then
      { st with pnlSubscribed := true } else st with hst2
  have g1 : (st2.evals.all fun x => x.2.1) = true := by
    rw [hst2]; split <;> simpa using h1
  have g2 : st2.pnlSubscribed = true → st2.positions.isEmpty = false := by
    rw [hst2]; split
    · next hc =>
        intro _
        simp only [Bool.and_eq_true, Bool.not_eq_true'] at hc
        exact hc.2
    · exact h2
  cases e with
  | positionUpdate p =>
      refine ⟨g1, fun _ => ?_⟩
      simp
  | positionEnd => exact ⟨g1, g2⟩
  | accountSummary v => exact ⟨g1, g2⟩
  | pnlUpdate r =>
      by_cases hs : st2.pnlSubscribed = true
      · have hpos := g2 hs
        simp only [hs, if_true]
        refine ⟨?_, fun _ => hpos⟩
        simp [List.all_append, g1, hpos]
      · simp only [hs]
        simp only [Bool.not_eq_true] at hs
        simp [hs, g1, g2]

/-- Helper: the run-lifecycle invariant, folded over any event schedule. -/
theorem mypnl_run_invariant (events : List GwEvent) (st : RunState)
    (h1 : (st.evals.all fun x => x.2.1) = true)
    (h2 : st.pnlSubscribed = true → st.positions.isEmpty = false) :
    ((events.foldl mypnl_step st).evals.all fun x => x.2.1) = true := by
  induction events generalizing st with
  | nil => simpa using h1
  | cons e rest ih =>
      obtain ⟨g1, g2⟩ := mypnl_step_invariant st e h1 h2
      simpa using ih (mypnl_step st e) g1 g2

/-- C9 amended: the only readiness gate of `SimplePnLStrategy` is that at
least one open position exists; since `on_pnl` is subscribed only after
`wait_for_initial_position` returns, every recorded threshold evaluation
— over every gateway event schedule — happens with a nonempty position
list, and PnL updates arriving before that gate are ignored, not
evaluated.  There is no account-summary alternative and no
snapshot-complete gate. -/
theorem evals_require_position (events : List GwEvent) :
    ((mypnl_run events).evals.all fun x => x.2.1) = true := by
  unfold mypnl_run
  exact mypnl_run_invariant events _ rfl (by intro h; cases h)

end TbotTradingboat
